import Mathlib

/-!
Verification development for the `viirs_watcher` repository (Go).

The repository contains three program variants:
 * `viirs-watcher.go`  — embedded below in namespace `VW1`;
 * `viirs-watcher2.go` — embedded below in namespace `VW2`;
 * an unnamed variant (an earlier revision of the watcher) — namespace `P0`.

Go strings are modelled as `List Char` (`GoStr`), so that every string
operation used by the source (`strings.Split`, `strings.Join`,
`strings.HasPrefix`, `strings.Contains`, `filepath.Base`, `filepath.Join`)
is a structurally recursive, kernel-reducible Lean function.  External
effects (`exec.Command(...).Output()`, `os.Stat`) are modelled by passing
their results in explicitly (`Option` values: `none` = the call failed);
the functions below are otherwise direct transcriptions of the source.
-/

/-- Go strings, modelled as lists of characters. -/
abbrev GoStr := List Char

/-- Literal coercion: the character data of a Lean string literal. -/
def toL (s : String) : GoStr := s.data

/-- Model of Go `strings.Split(s, sep)` for a one-character separator
`sep`: splits `s` at every occurrence of `sep`.  As in Go,
`splitOnC sep [] = [[]]` and a trailing separator yields a trailing
empty fragment. -/
def splitOnC (sep : Char) : GoStr → List GoStr
  | [] => [[]]
  | c :: rest =>
    let r := splitOnC sep rest
    if c = sep then [] :: r
    else
      match r with
      | [] => [[c]]
      | h :: t => (c :: h) :: t

/-- Model of Go `filepath.Base`: the last element of the path after
trailing (and repeated) separators are dropped; `"."` for the empty
path, `"/"` for a path made of separators only. -/
def base (fp : GoStr) : GoStr :=
  if fp = [] then toL "."
  else
    match ((splitOnC '/' fp).filter (fun c => c ≠ [])).getLast? with
    | some c => c
    | none => toL "/"

/-- Model of Go `filepath.Join(d, n)` for a directory argument free of
trailing separators: `n` when `d` is empty, otherwise `d ++ "/" ++ n`. -/
def joinPath (d n : GoStr) : GoStr :=
  if d = [] then n else d ++ '/' :: n

/-- Model of Go `strings.Contains(hay, needle)`: `needle` occurs as a
contiguous substring of `hay`. -/
def containsSub (hay needle : GoStr) : Bool :=
  if List.isPrefixOf needle hay then true
  else
    match hay with
    | [] => false
    | _ :: t => containsSub t needle

/-- One invocation of an external binary: the binary and its argv. -/
structure Invocation where
  bin : GoStr
  args : List GoStr
deriving DecidableEq

/-- Association-list model of a Go `map[string]V`: lookup. -/
def lookupA {V : Type} (aw : List (GoStr × V)) (k : GoStr) : Option V :=
  match aw with
  | [] => none
  | (k2, v) :: rest => if k2 = k then some v else lookupA rest k

/-- Association-list model of a Go `map[string]V`: insert / replace. -/
def insertA {V : Type} (aw : List (GoStr × V)) (k : GoStr) (v : V) : List (GoStr × V) :=
  match aw with
  | [] => [(k, v)]
  | (k2, v2) :: rest => if k2 = k then (k, v) :: rest else (k2, v2) :: insertA rest k v

/-- Association-list model of a Go `map[string]V`: `delete`. -/
def eraseA {V : Type} (aw : List (GoStr × V)) (k : GoStr) : List (GoStr × V) :=
  aw.filter (fun p => p.1 ≠ k)

namespace VW1

/-- The error values declared at the top of `viirs-watcher.go`. -/
inductive GoErr
  | IdMissmatch
  | UnexpectedName
  | DetectFailed
  | FitFailed
  | NightCheckFailed
  | NoNightData
deriving DecidableEq

/-- `version = "v2.1"`. -/
def version : GoStr := toL "v2.1"

/-- `defaultPath = "."`. -/
def defaultPath : GoStr := toL "."

/-- `defaultDetect = "viirs_detect"`. -/
def defaultDetect : GoStr := toL "viirs_detect"

/-- `defaultFit = "viirs_fit"`. -/
def defaultFit : GoStr := toL "viirs_fit"

/-- `m10 = "SVM10"`. -/
def m10 : GoStr := toL "SVM10"

/-- The nested `Watcher` struct of `Config`.  The Go field `Type` is
rendered `Typ` (`Type` is reserved in Lean). -/
structure WatcherCfg where
  Typ : GoStr
  Period : GoStr
  WatchDir : GoStr
  SubWatchDir : GoStr
deriving DecidableEq

/-- `Config` of `viirs-watcher.go`. -/
structure Config where
  Watcher : WatcherCfg
  OutputDir : GoStr
  DetectBinary : GoStr
  FitBinary : GoStr
  H5DumpBinary : GoStr
  ReduceBinary : GoStr
  RequireFiles : List GoStr
deriving DecidableEq

/-- `func (c *Config) Constrain()` (lines 57–79): if `RequireFiles`
already contains `m10`, return at once; otherwise append `m10` and fill
every empty field with its default. -/
def Constrain (c : Config) : Config :=
  if c.RequireFiles.contains m10 then c
  else
    ⟨⟨if c.Watcher.Typ = [] then toL "inotify" else c.Watcher.Typ,
      c.Watcher.Period,
      if c.Watcher.WatchDir = [] then defaultPath else c.Watcher.WatchDir,
      c.Watcher.SubWatchDir⟩,
     if c.OutputDir = [] then defaultPath else c.OutputDir,
     if c.DetectBinary = [] then defaultDetect else c.DetectBinary,
     if c.FitBinary = [] then defaultFit else c.FitBinary,
     c.H5DumpBinary,
     c.ReduceBinary,
     c.RequireFiles ++ [m10]⟩

/-- The `State` struct (lines 129–133). -/
structure State where
  Id : GoStr
  M10File : GoStr
  Files : List GoStr
deriving DecidableEq

/-- `func NewState(fp string)` (lines 135–148): split the base name on
`"_"`; fewer than six parts is `UnexpectedName` (`none`); otherwise the
id is parts 1–4 (0-based) rejoined with `"_"`, `Files` is the singleton
of part 0, and `M10File` is `fp` when part 0 equals `m10`. -/
def NewState (fp : GoStr) : Option State :=
  let parts := splitOnC '_' (base fp)
  if parts.length < 6 then none
  else
    some ⟨List.intercalate (toL "_") ((parts.drop 1).take 4),
          if parts.headI = m10 then fp else [],
          [parts.headI]⟩

/-- `func (s *State) Merge(s2 *State)` (lines 150–159), with the mutated
receiver returned alongside the Go error: on id mismatch nothing is
merged; otherwise `s.Files` is extended with `s2.Files` and `s.M10File`
is taken from `s2` only when `s`'s own is empty. -/
def Merge (s s2 : State) : State × Option GoErr :=
  if s.Id ≠ s2.Id then (s, some GoErr.IdMissmatch)
  else
    (⟨s.Id,
      if s.M10File = [] then s2.M10File else s.M10File,
      s.Files ++ s2.Files⟩, none)

/-- `func (c *Config) Done(s *State)` (lines 81–93): the `index` map of
`s.Files` is modelled by list membership; `Done` holds iff every entry
of `RequireFiles` occurs in `s.Files`. -/
def Done (c : Config) (s : State) : Bool :=
  c.RequireFiles.all (fun b => s.Files.contains b)

/-- One iteration of the `work` loop (lines 166–190) on one notification
carrying file path `f`.  The loop state is the `awaiting` table paired
with the trace of granule ids handed to `Process` so far (the dispatch
trace).  `s.Merge(s2)`'s error return is discarded exactly as in the
source. -/
def work1 (cfg : Config) (st : List (GoStr × State) × List GoStr) (f : GoStr) :
    List (GoStr × State) × List GoStr :=
  match NewState f with
  | none => st
  | some s0 =>
    let s := match lookupA st.1 s0.Id with
             | some s2 => (Merge s0 s2).1
             | none => s0
    let aw := insertA st.1 s.Id s
    if Done cfg s then (eraseA aw s.Id, st.2 ++ [s.Id]) else (aw, st.2)

/-- The `work` loop run over a finite list of notifications, from the
empty `awaiting` table. -/
def workRun (cfg : Config) (fs : List GoStr) : List (GoStr × State) × List GoStr :=
  fs.foldl (work1 cfg) ([], [])

/-- Results of the three external commands `Process` may run; `none`
models `cmd.Output()` returning a non-nil error. -/
structure Env where
  h5dump : Option GoStr
  detect : Option GoStr
  fit : Option GoStr
deriving DecidableEq

/-- `func (c *Config) hasNight(s *State)` (lines 95–106), the h5dump
output passed in: launch failure gives `(true, NightCheckFailed)`;
otherwise `(true, nil)` iff the output contains
`"Descending_Indicator"`. -/
def hasNight (dump : Option GoStr) : Bool × Option GoErr :=
  match dump with
  | none => (true, some GoErr.NightCheckFailed)
  | some out =>
    if containsSub out (toL "Descending_Indicator") then (true, none)
    else (false, none)

/-- `func (c *Config) Process(s *State)` (lines 108–127): the returned
Go error paired with the pipeline-stage invocations actually issued (the
gate's h5dump run is inside `hasNight`).  Skip — return `NoNightData`
with no stage run — exactly when `hasNight` returned `(false, nil)`. -/
def Process (c : Config) (env : Env) (s : State) : Option GoErr × List Invocation :=
  let gate := hasNight env.h5dump
  if gate.2 = none ∧ gate.1 = false then (some GoErr.NoNightData, [])
  else
    let detfile := joinPath c.OutputDir (List.intercalate (toL "_") [toL "VNFD", s.Id, version]) ++ toL ".csv"
    let detInv : Invocation := ⟨c.DetectBinary, [s.M10File, toL "-output", detfile, toL "-cloud", toL "0"]⟩
    match env.detect with
    | none => (some GoErr.DetectFailed, [detInv])
    | some _ =>
      let fitfile := joinPath c.OutputDir (List.intercalate (toL "_") [toL "VNFL", s.Id, version]) ++ toL ".csv"
      let fitInv : Invocation := ⟨c.FitBinary,
        [detfile, toL "-output", fitfile, toL "-plot", toL "1", toL "-map", toL "1",
         toL "-localmax", toL "1", toL "-size", toL "100", toL "-font", toL "10"]⟩
      match env.fit with
      | none => (some GoErr.FitFailed, [detInv, fitInv])
      | some _ => (none, [detInv, fitInv])

/-- The per-file stability goroutine of `workLayout` (lines 212–228),
the two `os.Stat` size results passed in (`none` = the stat failed):
the notification is emitted iff both stats succeeded and the sizes are
equal; on either failure the goroutine returns without emitting. -/
def stableNotify (stat1 stat2 : Option Int) : Bool :=
  match stat1 with
  | none => false
  | some osz =>
    match stat2 with
    | none => false
    | some nsz => osz == nsz

/-- Synchronisation-relevant state of a `LayoutWatcher` (lines 242–313):
the `sync.WaitGroup` counter (`Add`s minus `Done`s so far), the number
of polling goroutines spawned, and the keys of the `done` map. -/
structure LW where
  wgCount : Nat
  tasks : Nat
  watched : List GoStr
deriving DecidableEq

/-- `NewLayoutWatcher` (lines 251–258): no goroutines, empty `done` map. -/
def NewLayoutWatcher : LW := ⟨0, 0, []⟩

/-- `func (lw *LayoutWatcher) AddWatch(path string)` (lines 275–313):
`lw.wg.Add(1)` executes first; then, if `path` is already a key of the
`done` map, the method returns (no goroutine is spawned, no `wg.Done`
will ever match that `Add`); otherwise the path is recorded and one
polling goroutine is spawned. -/
def AddWatch (lw : LW) (path : GoStr) : LW :=
  let wg := lw.wgCount + 1
  if lw.watched.contains path then ⟨wg, lw.tasks, lw.watched⟩
  else ⟨wg, lw.tasks + 1, lw.watched ++ [path]⟩

/-- `func (lw *LayoutWatcher) Close()` (lines 268–273) closes every
`done` channel and calls `lw.wg.Wait()`.  Each spawned goroutine runs
`lw.wg.Done()` exactly once after its channel closes (line 311), so
`Wait` — and hence `Close` — returns iff every `Add(1)` is matched by a
spawned goroutine's `Done`. -/
def closeReturns (lw : LW) : Bool := lw.wgCount == lw.tasks

end VW1

namespace VW2

/-- `UnexpectedName` of `viirs-watcher2.go` (its only error value). -/
inductive GoErr
  | UnexpectedName
deriving DecidableEq

/-- `required`, the hard-coded required-type list (lines 25–37). -/
def required : List GoStr :=
  [toL "GMTCO", toL "IICMO", toL "SVDNB", toL "SVM07", toL "SVM08", toL "SVM10",
   toL "SVM12", toL "SVM13", toL "SVM14", toL "SVM15", toL "SVM16"]

/-- `m10 = "SVM10"`. -/
def m10 : GoStr := toL "SVM10"

/-- `OutputDir = "/output"`. -/
def OutputDir : GoStr := toL "/output"

/-- `DetectBinary = "viirs_detect"`. -/
def DetectBinary : GoStr := toL "viirs_detect"

/-- `FitBinary = "viirs_fit"`. -/
def FitBinary : GoStr := toL "viirs_fit"

/-- `version = "v2.1"`. -/
def version : GoStr := toL "v2.1"

/-- `func getId(m10file string)` (lines 47–55): split the base name on
`"_"`; fewer than six parts fails with `UnexpectedName`; otherwise parts
1–4 rejoined with `"_"`. -/
def getId (m10file : GoStr) : Option GoStr :=
  let parts := splitOnC '_' (base m10file)
  if parts.length < 6 then none
  else some (List.intercalate (toL "_") ((parts.drop 1).take 4))

/-- Characters Go `strings.TrimSpace` removes (the ASCII white space
relevant to h5dump output). -/
def isSpaceC (c : Char) : Bool :=
  c = ' ' || c = '\t' || c = '\n' || c = '\r'

/-- Model of Go `strings.TrimSpace`. -/
def trimSpaceC (s : GoStr) : GoStr :=
  ((s.dropWhile isSpaceC).reverse.dropWhile isSpaceC).reverse

/-- `func hasNight(m10file string)` (lines 57–81), abstracted over the
external steps: `vals = none` models any failure of h5dump, of the
xpath compilation or of the XML parse (each of which makes the source
return `true`); `vals = some vs` models a successful run yielding the
list of `Ascending/Descending_Indicator` node texts.  The source
returns `true` iff some node's trimmed text differs from `"0"`. -/
def hasNight (vals : Option (List GoStr)) : Bool :=
  match vals with
  | none => true
  | some vs => vs.any (fun v => trimSpaceC v ≠ toL "0")

/-- External-command results for `VW2.Process`: the indicator values the
gate extracts (see `hasNight`), and the detect/fit outcomes. -/
structure Env where
  dumpVals : Option (List GoStr)
  detect : Option GoStr
  fit : Option GoStr
deriving DecidableEq

/-- `func Process(m10file string)` (lines 83–109): returns the pipeline
invocations issued (the function itself returns nothing; failures are
only logged).  Note the stage-2 output tag is `"VNFF"` here. -/
def Process (env : Env) (m10file : GoStr) : List Invocation :=
  if hasNight env.dumpVals = false then []
  else
    match getId m10file with
    | none => []
    | some id =>
      let detfile := joinPath OutputDir (List.intercalate (toL "_") [toL "VNFD", id, version]) ++ toL ".csv"
      let detInv : Invocation := ⟨DetectBinary, [m10file, toL "-output", detfile, toL "-cloud", toL "0"]⟩
      match env.detect with
      | none => [detInv]
      | some _ =>
        let fitfile := joinPath OutputDir (List.intercalate (toL "_") [toL "VNFF", id, version]) ++ toL ".csv"
        let fitInv : Invocation := ⟨FitBinary,
          [detfile, toL "-output", fitfile, toL "-plot", toL "1", toL "-map", toL "1",
           toL "-localmax", toL "1", toL "-size", toL "100", toL "-font", toL "10"]⟩
        [detInv, fitInv]

/-- `func fileDone(f string)` (lines 120–135), the two `os.Stat` size
results passed in (`none` = the stat failed).  When a stat fails the
source logs and then still calls `finfo.Size()` on the nil `FileInfo`,
a nil-pointer dereference: modelled as the result `none` (panic).
Otherwise `some (osz == nsz)`. -/
def fileDone (stat1 stat2 : Option Int) : Option Bool :=
  match stat1 with
  | none => none
  | some osz =>
    match stat2 with
    | none => none
    | some nsz => some (osz == nsz)

end VW2

namespace P0

/-- The error values of the unnamed variant. -/
inductive GoErr
  | IdMissmatch
  | UnexpectedName
  | DetectFailed
  | FitFailed
deriving DecidableEq

/-- `version = "v2.1"`. -/
def version : GoStr := toL "v2.1"

/-- `defaultPath = "."`. -/
def defaultPath : GoStr := toL "."

/-- `defaultDetect = "viirs_detect"`. -/
def defaultDetect : GoStr := toL "viirs_detect"

/-- `defaultFit = "viirs_fit"`. -/
def defaultFit : GoStr := toL "viirs_fit"

/-- `m10 = "SVM10"`. -/
def m10 : GoStr := toL "SVM10"

/-- `Config` of the unnamed variant (lines 30–37). -/
structure Config where
  WatchDir : GoStr
  OutputDir : GoStr
  DetectBinary : GoStr
  FitBinary : GoStr
  ReduceBinary : GoStr
  RequireFiles : List GoStr
deriving DecidableEq

/-- `func (c *Config) Constrain()` (lines 39–58). -/
def Constrain (c : Config) : Config :=
  if c.RequireFiles.contains m10 then c
  else
    ⟨if c.WatchDir = [] then defaultPath else c.WatchDir,
     if c.OutputDir = [] then defaultPath else c.OutputDir,
     if c.DetectBinary = [] then defaultDetect else c.DetectBinary,
     if c.FitBinary = [] then defaultFit else c.FitBinary,
     c.ReduceBinary,
     c.RequireFiles ++ [m10]⟩

/-- The `State` struct (lines 92–96). -/
structure State where
  Id : GoStr
  M10File : GoStr
  Files : List GoStr
deriving DecidableEq

/-- `func NewState(fp string)` (lines 98–113) of the unnamed variant:
as in `VW1.NewState`, except that part 0 is appended to `Files` only
when it has prefix `"SV"`. -/
def NewState (fp : GoStr) : Option State :=
  let parts := splitOnC '_' (base fp)
  if parts.length < 6 then none
  else
    some ⟨List.intercalate (toL "_") ((parts.drop 1).take 4),
          if parts.headI = m10 then fp else [],
          if List.isPrefixOf (toL "SV") parts.headI then [parts.headI] else []⟩

/-- `func (s *State) Merge(s2 *State)` (lines 115–124). -/
def Merge (s s2 : State) : State × Option GoErr :=
  if s.Id ≠ s2.Id then (s, some GoErr.IdMissmatch)
  else
    (⟨s.Id,
      if s.M10File = [] then s2.M10File else s.M10File,
      s.Files ++ s2.Files⟩, none)

/-- `func (c *Config) Done(s *State)` (lines 60–72). -/
def Done (c : Config) (s : State) : Bool :=
  c.RequireFiles.all (fun b => s.Files.contains b)

/-- One iteration of the `work` loop (lines 126–148) of the unnamed
variant, as in `VW1.work1`. -/
def work1 (cfg : Config) (st : List (GoStr × State) × List GoStr) (f : GoStr) :
    List (GoStr × State) × List GoStr :=
  match NewState f with
  | none => st
  | some s0 =>
    let s := match lookupA st.1 s0.Id with
             | some s2 => (Merge s0 s2).1
             | none => s0
    let aw := insertA st.1 s.Id s
    if Done cfg s then (eraseA aw s.Id, st.2 ++ [s.Id]) else (aw, st.2)

/-- The unnamed variant's `work` loop over a list of file paths. -/
def workRun (cfg : Config) (fs : List GoStr) : List (GoStr × State) × List GoStr :=
  fs.foldl (work1 cfg) ([], [])

end P0

/-- The `awaiting` table of a run that has only ever seen arrivals of
granule `gid`: empty, or a single binding for `gid`. -/
def awOf (gid : GoStr) : Option VW1.State → List (GoStr × VW1.State)
  | none => []
  | some s => [(gid, s)]

/-- The satisfied-type list held by an optional pending record. -/
def filesOf : Option VW1.State → List GoStr
  | none => []
  | some s => s.Files

/-- A configuration of `viirs-watcher.go` whose only required type is
`SVM10`; every other field is empty. -/
def cfgM10 : VW1.Config := ⟨⟨[], [], [], []⟩, [], [], [], [], [], [toL "SVM10"]⟩

/-- A configuration of `viirs-watcher.go` requiring `GMTCO` and `SVM10`. -/
def cfgGM : VW1.Config := ⟨⟨[], [], [], []⟩, [], [], [], [], [], [toL "GMTCO", toL "SVM10"]⟩

/-- A configuration of `viirs-watcher.go` with the full VIIRS
required-type list of the spec's end-to-end scenario. -/
def cfgAll : VW1.Config := ⟨⟨[], [], [], []⟩, [], [], [], [], [], VW2.required⟩

/-- Eleven stable arrivals for granule `A_B_C_D`, one per required type,
in the order of `VW2.required`. -/
def fsAll : List GoStr :=
  [toL "GMTCO_A_B_C_D_c.h5", toL "IICMO_A_B_C_D_c.h5", toL "SVDNB_A_B_C_D_c.h5",
   toL "SVM07_A_B_C_D_c.h5", toL "SVM08_A_B_C_D_c.h5", toL "SVM10_A_B_C_D_c.h5",
   toL "SVM12_A_B_C_D_c.h5", toL "SVM13_A_B_C_D_c.h5", toL "SVM14_A_B_C_D_c.h5",
   toL "SVM15_A_B_C_D_c.h5", toL "SVM16_A_B_C_D_c.h5"]

/-- A configuration of the unnamed variant requiring `GMTCO` and `SVM10`. -/
def cfgP0 : P0.Config := ⟨[], [], [], [], [], [toL "GMTCO", toL "SVM10"]⟩

/-- A pending record for granule `A_B_C_D` whose trigger file has been
seen. -/
def sM10 : VW1.State := ⟨toL "A_B_C_D", toL "SVM10_A_B_C_D_x.h5", [toL "SVM10"]⟩

/-! ## Helper lemmas about the association-list map model -/

theorem lookupA_insertA_self {V : Type} (aw : List (GoStr × V)) (k : GoStr) (v : V) :
    lookupA (insertA aw k v) k = some v := by
  induction aw with
  | nil => simp [insertA, lookupA]
  | cons p rest ih =>
    by_cases h : p.1 = k
    · simp [insertA, lookupA, h]
    · simp [insertA, lookupA, h, ih]

theorem lookupA_eraseA_self {V : Type} (aw : List (GoStr × V)) (k : GoStr) :
    lookupA (eraseA aw k) k = none := by
  induction aw with
  | nil => rfl
  | cons p rest ih =>
    by_cases h : p.1 = k
    · simpa [eraseA, h] using ih
    · simpa [eraseA, lookupA, h] using ih

theorem lookupA_mem {V : Type} (aw : List (GoStr × V)) (k : GoStr) (v : V)
    (h : lookupA aw k = some v) : (k, v) ∈ aw := by
  induction aw with
  | nil => simp [lookupA] at h
  | cons p rest ih =>
    cases p with
    | mk k1 v1 =>
      by_cases hk : k1 = k
      · subst hk
        simp [lookupA] at h
        subst h
        exact List.mem_cons_self _ _
      · simp [lookupA, hk] at h
        exact List.mem_cons_of_mem _ (ih h)

theorem mem_insertA {V : Type} (aw : List (GoStr × V)) (k : GoStr) (v : V) (p : GoStr × V)
    (h : p ∈ insertA aw k v) : p = (k, v) ∨ p ∈ aw := by
  induction aw with
  | nil => simpa [insertA] using h
  | cons q rest ih =>
    by_cases hq : q.1 = k
    · simp [insertA, hq] at h
      rcases h with h | h
      · exact Or.inl h
      · exact Or.inr (List.mem_cons_of_mem _ h)
    · simp [insertA, hq] at h
      rcases h with h | h
      · exact Or.inr (by simp [h])
      · rcases ih h with h2 | h2
        · exact Or.inl h2
        · exact Or.inr (List.mem_cons_of_mem _ h2)

/-! ## Helper lemmas about `Done` and `Merge` -/

theorem vw1_done_iff (c : VW1.Config) (s : VW1.State) :
    VW1.Done c s = true ↔ ∀ b ∈ c.RequireFiles, b ∈ s.Files := by
  simp [VW1.Done, List.all_eq_true, List.contains]

theorem vw1_done_false (c : VW1.Config) (s : VW1.State) (b : GoStr)
    (hb : b ∈ c.RequireFiles) (hnb : b ∉ s.Files) : VW1.Done c s = false := by
  rw [← Bool.not_eq_true, vw1_done_iff]
  intro hall
  exact hnb (hall b hb)

theorem p0_done_false (c : P0.Config) (s : P0.State) (b : GoStr)
    (hb : b ∈ c.RequireFiles) (hnb : b ∉ s.Files) : P0.Done c s = false := by
  rw [← Bool.not_eq_true]
  simp only [P0.Done, List.all_eq_true, List.contains]
  intro hall
  have := hall b hb
  simp at this
  exact hnb this

theorem vw1_merge_id (s s2 : VW1.State) : (VW1.Merge s s2).1.Id = s.Id := by
  unfold VW1.Merge
  split <;> rfl

/-! ## Claim theorems -/

/-- C2 (counterexample): classifying `"NPP_GMTCO_A1_B2_C3_D4.h5"` does
NOT yield type `GMTCO` and id `A1_B2_C3_D4`.  Both classifiers split on
underscores and take part 0 as the type and parts 1–4 as the id, so the
filename yields type `NPP` and id `GMTCO_A1_B2_C3`. -/
theorem c2_classify_counterexample :
    VW1.NewState (toL "NPP_GMTCO_A1_B2_C3_D4.h5")
      = some ⟨toL "GMTCO_A1_B2_C3", [], [toL "NPP"]⟩
  ∧ VW2.getId (toL "NPP_GMTCO_A1_B2_C3_D4.h5") = some (toL "GMTCO_A1_B2_C3")
  ∧ toL "GMTCO_A1_B2_C3" ≠ toL "A1_B2_C3_D4"
  ∧ toL "NPP" ≠ toL "GMTCO" := by
  refine ⟨by decide, by decide, by decide, by decide⟩

/-- C2 (amended): classification is a fixed positional split, not a
capture-group concatenation: the type is the first underscore-delimited
part and the id is parts 2–5 rejoined.  On
`"NPP_GMTCO_A1_B2_C3_D4.h5"` this gives type `NPP` and id
`GMTCO_A1_B2_C3`; the pair claimed by the spec arises for a filename
with the type first, e.g. `"GMTCO_A1_B2_C3_D4_c.h5"`. -/
theorem c2_classify_amended :
    VW1.NewState (toL "NPP_GMTCO_A1_B2_C3_D4.h5")
      = some ⟨toL "GMTCO_A1_B2_C3", [], [toL "NPP"]⟩
  ∧ VW2.getId (toL "NPP_GMTCO_A1_B2_C3_D4.h5") = some (toL "GMTCO_A1_B2_C3")
  ∧ VW1.NewState (toL "GMTCO_A1_B2_C3_D4_c.h5")
      = some ⟨toL "A1_B2_C3_D4", [], [toL "GMTCO"]⟩
  ∧ VW2.getId (toL "GMTCO_A1_B2_C3_D4_c.h5") = some (toL "A1_B2_C3_D4") := by
  refine ⟨by decide, by decide, by decide, by decide⟩

/-- C9: when `RequireFiles` already contains `"SVM10"`, `Constrain`
returns with the configuration completely unchanged — no empty field is
replaced by its default — in both variants that define it. -/
theorem c9_constrain_noop (c : VW1.Config) (c2 : P0.Config)
    (h : VW1.m10 ∈ c.RequireFiles) (h2 : P0.m10 ∈ c2.RequireFiles) :
    VW1.Constrain c = c ∧ P0.Constrain c2 = c2 := by
  constructor
  · simp [VW1.Constrain, List.contains, h]
  · simp [P0.Constrain, List.contains, h2]

/-- C9 witness: a configuration with `RequireFiles = ["SVM10"]` and all
other fields empty is left untouched by `Constrain`. -/
theorem c9_constrain_noop_witness :
    VW1.Constrain cfgM10 = cfgM10
  ∧ P0.Constrain ⟨[], [], [], [], [], [toL "SVM10"]⟩
      = ⟨[], [], [], [], [], [toL "SVM10"]⟩ :=
  c9_constrain_noop cfgM10 ⟨[], [], [], [], [], [toL "SVM10"]⟩ (by decide) (by decide)

/-- C3 (code bug): in `viirs-watcher2.go`, `fileDone` calls
`finfo.Size()` on the nil `FileInfo` after a failed `os.Stat` — modelled
as the crash result `none` — whenever either stat fails, instead of
returning `false`.  The corresponding check in `viirs-watcher.go`'s
`workLayout` does behave as the claim states: it emits the notification
iff both stats succeeded and the sizes are equal. -/
theorem c3_stat_failure (st1 st2 : Option Int) :
    VW2.fileDone none st2 = none
  ∧ VW2.fileDone st1 none = none
  ∧ (VW1.stableNotify st1 st2 = true ↔ ∃ n, st1 = some n ∧ st2 = some n) := by
  refine ⟨rfl, ?_, ?_⟩
  · cases st1 <;> rfl
  · cases st1 <;> cases st2 <;> simp [VW1.stableNotify]
    omega

/-- C8 (code bug): `AddWatch` runs `wg.Add(1)` before the duplicate-path
check.  A second `AddWatch` on a watched path spawns no task and leaves
the watched set unchanged, but leaves the `WaitGroup` counter one above
the number of goroutines that will ever call `Done`, so the subsequent
`Close` blocks in `wg.Wait()` forever instead of returning as it does
after a single `AddWatch`. -/
theorem c8_double_addwatch :
    VW1.closeReturns (VW1.AddWatch VW1.NewLayoutWatcher (toL "/data/run1/result")) = true
  ∧ (VW1.AddWatch (VW1.AddWatch VW1.NewLayoutWatcher (toL "/data/run1/result"))
        (toL "/data/run1/result")).watched
      = (VW1.AddWatch VW1.NewLayoutWatcher (toL "/data/run1/result")).watched
  ∧ (VW1.AddWatch (VW1.AddWatch VW1.NewLayoutWatcher (toL "/data/run1/result"))
        (toL "/data/run1/result")).tasks
      = (VW1.AddWatch VW1.NewLayoutWatcher (toL "/data/run1/result")).tasks
  ∧ (VW1.AddWatch (VW1.AddWatch VW1.NewLayoutWatcher (toL "/data/run1/result"))
        (toL "/data/run1/result")).wgCount
      = (VW1.AddWatch VW1.NewLayoutWatcher (toL "/data/run1/result")).wgCount + 1
  ∧ VW1.closeReturns (VW1.AddWatch (VW1.AddWatch VW1.NewLayoutWatcher (toL "/data/run1/result"))
        (toL "/data/run1/result")) = false := by
  refine ⟨by decide, by decide, by decide, by decide, by decide⟩

/-- C1 (counterexample): with `RequireFiles = ["SVM10"]`, feeding the
same complete arrival twice dispatches granule `A_B_C_D` twice: after
the first dispatch removes the record, the duplicate arrival of the
already-satisfied type builds a fresh record that is again complete. -/
theorem c1_redispatch_counterexample :
    (VW1.workRun cfgM10 [toL "SVM10_A_B_C_D_x.h5", toL "SVM10_A_B_C_D_x.h5"]).2
      = [toL "A_B_C_D", toL "A_B_C_D"]
  ∧ ((VW1.workRun cfgM10 [toL "SVM10_A_B_C_D_x.h5", toL "SVM10_A_B_C_D_x.h5"]).2).count
      (toL "A_B_C_D") = 2 := by
  refine ⟨by decide, by decide⟩

/-- C5 (counterexample): two `SVM10` arrivals with different paths for
the same granule: the pending record ends up holding the SECOND
arrival's trigger path, not the first-seen one. -/
theorem c5_trigger_counterexample :
    lookupA (VW1.workRun cfgGM
        [toL "SVM10_A_B_C_D_x.h5", toL "SVM10_A_B_C_D_y.h5"]).1 (toL "A_B_C_D")
      = some ⟨toL "A_B_C_D", toL "SVM10_A_B_C_D_y.h5", [toL "SVM10", toL "SVM10"]⟩
  ∧ toL "SVM10_A_B_C_D_y.h5" ≠ toL "SVM10_A_B_C_D_x.h5" := by
  refine ⟨by decide, by decide⟩

theorem intercalate_tag (tag id ver : GoStr) :
    List.intercalate (toL "_") [tag, id, ver] = tag ++ '_' :: id ++ '_' :: ver := by
  simp [List.intercalate, List.intersperse, toL]

/-- C1 (amended): each dispatch is driven by an arrival of the same
granule, appends exactly that granule's id to the dispatch trace, and
removes the id from the pending table in the same step — so a second
dispatch of the same id requires completeness to be re-established by
arrivals after the removal (as the counterexample shows can happen). -/
theorem c1_dispatch_amended (cfg : VW1.Config) (st : List (GoStr × VW1.State) × List GoStr)
    (f : GoStr) (h : (VW1.work1 cfg st f).2 ≠ st.2) :
    ∃ s0, VW1.NewState f = some s0
      ∧ (VW1.work1 cfg st f).2 = st.2 ++ [s0.Id]
      ∧ lookupA (VW1.work1 cfg st f).1 s0.Id = none := by
  cases hns : VW1.NewState f with
  | none =>
    exfalso
    apply h
    simp only [VW1.work1, hns]
  | some s0 =>
    cases hlk : lookupA st.1 s0.Id with
    | none =>
      cases hd : VW1.Done cfg s0 with
      | false =>
        exfalso
        apply h
        simp [VW1.work1, hns, hlk, hd]
      | true =>
        refine ⟨s0, rfl, ?_, ?_⟩
        · simp only [VW1.work1, hns, hlk, hd, if_true]
        · simp only [VW1.work1, hns, hlk, hd, if_true]
          exact lookupA_eraseA_self _ _
    | some s2 =>
      cases hd : VW1.Done cfg (VW1.Merge s0 s2).1 with
      | false =>
        exfalso
        apply h
        simp [VW1.work1, hns, hlk, hd]
      | true =>
        refine ⟨s0, rfl, ?_, ?_⟩
        · simp only [VW1.work1, hns, hlk, hd, if_true, vw1_merge_id]
        · simp only [VW1.work1, hns, hlk, hd, if_true, vw1_merge_id]
          exact lookupA_eraseA_self _ _

/-- C1 amended, witness: the first complete arrival of `SVM10_A_B_C_D_x.h5`
dispatches, appends `A_B_C_D` to the trace, and removes it from the table. -/
theorem c1_dispatch_amended_witness :
    (VW1.work1 cfgM10 ([], []) (toL "SVM10_A_B_C_D_x.h5")).2 ≠ []
  ∧ ∃ s0, VW1.NewState (toL "SVM10_A_B_C_D_x.h5") = some s0
      ∧ (VW1.work1 cfgM10 ([], []) (toL "SVM10_A_B_C_D_x.h5")).2 = [] ++ [s0.Id]
      ∧ lookupA (VW1.work1 cfgM10 ([], []) (toL "SVM10_A_B_C_D_x.h5")).1 s0.Id = none :=
  ⟨by decide, c1_dispatch_amended cfgM10 ([], []) (toL "SVM10_A_B_C_D_x.h5") (by decide)⟩

/-- C5 (amended): when an arrival is merged into an existing record for
the same id, the merged record kept in the pending table adopts the NEW
arrival's trigger path whenever that arrival carries one, and keeps the
previously-stored path only when the new arrival carries none. -/
theorem c5_merge_trigger_amended (cfg : VW1.Config) (aw : List (GoStr × VW1.State))
    (d : List GoStr) (f : GoStr) (s0 s2 : VW1.State)
    (h0 : VW1.NewState f = some s0) (h2 : lookupA aw s0.Id = some s2) (hid : s2.Id = s0.Id)
    (hnd : VW1.Done cfg (VW1.Merge s0 s2).1 = false) :
    lookupA (VW1.work1 cfg (aw, d) f).1 s0.Id
      = some ⟨s0.Id, if s0.M10File = [] then s2.M10File else s0.M10File,
              s0.Files ++ s2.Files⟩ := by
  have hm : (VW1.Merge s0 s2).1
      = ⟨s0.Id, if s0.M10File = [] then s2.M10File else s0.M10File,
         s0.Files ++ s2.Files⟩ := by
    simp [VW1.Merge, hid]
  simp only [VW1.work1, h0, h2, hnd, if_false]
  rw [hm]
  exact lookupA_insertA_self _ _ _

/-- C5 amended, witness: a second `SVM10` arrival with a new path merged
into the pending `A_B_C_D` record replaces the stored trigger path. -/
theorem c5_merge_trigger_amended_witness :
    lookupA (VW1.work1 cfgGM ([(toL "A_B_C_D", sM10)], [])
        (toL "SVM10_A_B_C_D_y.h5")).1 (toL "A_B_C_D")
      = some ⟨toL "A_B_C_D", toL "SVM10_A_B_C_D_y.h5",
              [toL "SVM10", toL "SVM10"]⟩ :=
  c5_merge_trigger_amended cfgGM [(toL "A_B_C_D", sM10)] []
    (toL "SVM10_A_B_C_D_y.h5")
    ⟨toL "A_B_C_D", toL "SVM10_A_B_C_D_y.h5", [toL "SVM10"]⟩ sM10
    (by decide) (by decide) (by decide) (by decide)

/-- C4 (counterexample): when the metadata tool runs successfully and
its output lacks the night marker, `Process` of `viirs-watcher.go` skips
— but it reports this by RETURNING the error `NoNightData` (which the
`work` loop logs as "Processing failed"), contradicting "reporting no
error". -/
theorem c4_skip_reports_error_counterexample :
    VW1.Process cfgM10 ⟨some (toL "<HDF5-File></HDF5-File>"), some [], some []⟩ sM10
      = (some VW1.GoErr.NoNightData, [])
  ∧ some VW1.GoErr.NoNightData ≠ (none : Option VW1.GoErr) := by
  refine ⟨by decide, by decide⟩

/-- C4 (amended): `Process` skips — runs no pipeline stage and returns
the distinguished error `NoNightData` — exactly when the inspection tool
ran successfully and its output lacks the `Descending_Indicator` marker;
whenever the tool itself fails to run, `Process` proceeds to run the
pipeline stages instead of dropping the granule. -/
theorem c4_gate_amended (c : VW1.Config) (env : VW1.Env) (s : VW1.State) :
    (VW1.Process c env s = (some VW1.GoErr.NoNightData, [])
       ↔ ∃ out, env.h5dump = some out
           ∧ containsSub out (toL "Descending_Indicator") = false)
  ∧ (env.h5dump = none → (VW1.Process c env s).1 ≠ some VW1.GoErr.NoNightData
       ∧ (VW1.Process c env s).2 ≠ []) := by
  cases env with
  | mk dump det fit =>
    cases dump with
    | none =>
      constructor
      · constructor
        · intro hEq
          cases det <;> cases fit <;> simp [VW1.Process, VW1.hasNight] at hEq
        · rintro ⟨out, hout, -⟩
          cases hout
      · intro _
        cases det <;> cases fit <;> simp [VW1.Process, VW1.hasNight]
    | some out =>
      cases hc : containsSub out (toL "Descending_Indicator") with
      | true =>
        constructor
        · constructor
          · intro hEq
            cases det <;> cases fit <;> simp [VW1.Process, VW1.hasNight, hc] at hEq
          · rintro ⟨o, ho, hno⟩
            injection ho with ho
            subst ho
            rw [hc] at hno
            cases hno
        · intro hnone
          cases hnone
      | false =>
        constructor
        · constructor
          · intro _
            exact ⟨out, rfl, hc⟩
          · intro _
            simp [VW1.Process, VW1.hasNight, hc]
        · intro hnone
          cases hnone

/-- C4 amended, witness: with the inspection tool failing to run,
`Process` does not skip: it reports a stage outcome and issues stage
invocations. -/
theorem c4_gate_amended_witness :
    (VW1.Process cfgM10 ⟨none, some [], some []⟩ sM10).1 ≠ some VW1.GoErr.NoNightData
  ∧ (VW1.Process cfgM10 ⟨none, some [], some []⟩ sM10).2 ≠ [] :=
  (c4_gate_amended cfgM10 ⟨none, some [], some []⟩ sM10).2 rfl

/-- C7 (counterexample): in `viirs-watcher2.go`, a dispatched granule's
stage 2 output file is named `VNFF_<id>_<version>.csv`, not
`VNFL_<id>_<version>.csv` as claimed. -/
theorem c7_vnff_counterexample :
    VW2.Process ⟨some [toL "1"], some [], some []⟩ (toL "SVM10_A_B_C_D_x.h5")
      = [⟨VW2.DetectBinary, [toL "SVM10_A_B_C_D_x.h5", toL "-output",
            toL "/output/VNFD_A_B_C_D_v2.1.csv", toL "-cloud", toL "0"]⟩,
         ⟨VW2.FitBinary, [toL "/output/VNFD_A_B_C_D_v2.1.csv", toL "-output",
            toL "/output/VNFF_A_B_C_D_v2.1.csv", toL "-plot", toL "1", toL "-map", toL "1",
            toL "-localmax", toL "1", toL "-size", toL "100", toL "-font", toL "10"]⟩]
  ∧ toL "/output/VNFF_A_B_C_D_v2.1.csv"
      ≠ joinPath VW2.OutputDir (toL "VNFL_A_B_C_D_v2.1.csv") := by
  refine ⟨by decide, by decide⟩

/-- C7 (amended): every pipeline invocation issued for a dispatched
granule writes its output (argv entry 2, after `-output`) under the
configured output directory with the deterministic name
`<TAG>_<granuleId>_<version>.csv` — TAG being `VNFD` for stage 1 in
both variants, `VNFL` for stage 2 in `viirs-watcher.go`, and `VNFF` for
stage 2 in `viirs-watcher2.go`. -/
theorem c7_output_names_amended (c : VW1.Config) (env : VW1.Env) (s : VW1.State)
    (env2 : VW2.Env) (f id : GoStr) (hid : VW2.getId f = some id) :
    (∀ inv ∈ (VW1.Process c env s).2,
        (inv.bin = c.DetectBinary
          ∧ inv.args.get? 2
              = some (joinPath c.OutputDir
                  (toL "VNFD" ++ '_' :: s.Id ++ '_' :: toL "v2.1") ++ toL ".csv"))
      ∨ (inv.bin = c.FitBinary
          ∧ inv.args.get? 2
              = some (joinPath c.OutputDir
                  (toL "VNFL" ++ '_' :: s.Id ++ '_' :: toL "v2.1") ++ toL ".csv")))
  ∧ (∀ inv ∈ VW2.Process env2 f,
        (inv.bin = VW2.DetectBinary
          ∧ inv.args.get? 2
              = some (joinPath VW2.OutputDir
                  (toL "VNFD" ++ '_' :: id ++ '_' :: toL "v2.1") ++ toL ".csv"))
      ∨ (inv.bin = VW2.FitBinary
          ∧ inv.args.get? 2
              = some (joinPath VW2.OutputDir
                  (toL "VNFF" ++ '_' :: id ++ '_' :: toL "v2.1") ++ toL ".csv"))) := by
  constructor
  · intro inv hmem
    by_cases hg : (VW1.hasNight env.h5dump).2 = none ∧ (VW1.hasNight env.h5dump).1 = false
    · simp [VW1.Process, hg] at hmem
    · cases hdet : env.detect with
      | none =>
        simp [VW1.Process, hg, hdet, intercalate_tag] at hmem
        subst hmem
        left
        exact ⟨rfl, rfl⟩
      | some o =>
        cases hfit : env.fit with
        | none =>
          simp [VW1.Process, hg, hdet, hfit, intercalate_tag] at hmem
          rcases hmem with hmem | hmem
          · subst hmem; left; exact ⟨rfl, rfl⟩
          · subst hmem; right; exact ⟨rfl, rfl⟩
        | some o2 =>
          simp [VW1.Process, hg, hdet, hfit, intercalate_tag] at hmem
          rcases hmem with hmem | hmem
          · subst hmem; left; exact ⟨rfl, rfl⟩
          · subst hmem; right; exact ⟨rfl, rfl⟩
  · intro inv hmem
    cases hn : VW2.hasNight env2.dumpVals with
    | false => simp [VW2.Process, hn] at hmem
    | true =>
      cases hdet : env2.detect with
      | none =>
        simp [VW2.Process, hn, hid, hdet, intercalate_tag] at hmem
        subst hmem
        left
        exact ⟨rfl, rfl⟩
      | some o =>
        simp [VW2.Process, hn, hid, hdet, intercalate_tag] at hmem
        rcases hmem with hmem | hmem
        · subst hmem; left; exact ⟨rfl, rfl⟩
        · subst hmem; right; exact ⟨rfl, rfl⟩

/-- C7 amended, witness: the stage 2 invocation issued by
`viirs-watcher2.go` for granule `A_B_C_D` carries the `VNFF` output name
under `/output`. -/
theorem c7_output_names_amended_witness :
    ((⟨VW2.FitBinary, [toL "/output/VNFD_A_B_C_D_v2.1.csv", toL "-output",
        toL "/output/VNFF_A_B_C_D_v2.1.csv", toL "-plot", toL "1", toL "-map", toL "1",
        toL "-localmax", toL "1", toL "-size", toL "100", toL "-font", toL "10"]⟩
          : Invocation).bin = VW2.DetectBinary
      ∧ (⟨VW2.FitBinary, [toL "/output/VNFD_A_B_C_D_v2.1.csv", toL "-output",
          toL "/output/VNFF_A_B_C_D_v2.1.csv", toL "-plot", toL "1", toL "-map", toL "1",
          toL "-localmax", toL "1", toL "-size", toL "100", toL "-font", toL "10"]⟩
            : Invocation).args.get? 2
          = some (joinPath VW2.OutputDir
              (toL "VNFD" ++ '_' :: toL "A_B_C_D" ++ '_' :: toL "v2.1") ++ toL ".csv"))
  ∨ ((⟨VW2.FitBinary, [toL "/output/VNFD_A_B_C_D_v2.1.csv", toL "-output",
        toL "/output/VNFF_A_B_C_D_v2.1.csv", toL "-plot", toL "1", toL "-map", toL "1",
        toL "-localmax", toL "1", toL "-size", toL "100", toL "-font", toL "10"]⟩
          : Invocation).bin = VW2.FitBinary
      ∧ (⟨VW2.FitBinary, [toL "/output/VNFD_A_B_C_D_v2.1.csv", toL "-output",
          toL "/output/VNFF_A_B_C_D_v2.1.csv", toL "-plot", toL "1", toL "-map", toL "1",
          toL "-localmax", toL "1", toL "-size", toL "100", toL "-font", toL "10"]⟩
            : Invocation).args.get? 2
          = some (joinPath VW2.OutputDir
              (toL "VNFF" ++ '_' :: toL "A_B_C_D" ++ '_' :: toL "v2.1") ++ toL ".csv")) :=
  (c7_output_names_amended cfgM10 ⟨none, none, none⟩ sM10
    ⟨some [toL "1"], some [], some []⟩ (toL "SVM10_A_B_C_D_x.h5") (toL "A_B_C_D")
    (by decide)).2
    ⟨VW2.FitBinary, [toL "/output/VNFD_A_B_C_D_v2.1.csv", toL "-output",
      toL "/output/VNFF_A_B_C_D_v2.1.csv", toL "-plot", toL "1", toL "-map", toL "1",
      toL "-localmax", toL "1", toL "-size", toL "100", toL "-font", toL "10"]⟩
    (by decide)

theorem work1_single (cfg : VW1.Config) (gid : GoStr) (os : Option VW1.State) (d : List GoStr)
    (f m t : GoStr)
    (hns : VW1.NewState f = some ⟨gid, m, [t]⟩)
    (hid : ∀ s, os = some s → s.Id = gid) :
    ∃ M, VW1.work1 cfg (awOf gid os, d) f
      = if VW1.Done cfg ⟨gid, M, t :: filesOf os⟩
        then ([], d ++ [gid])
        else ([(gid, (⟨gid, M, t :: filesOf os⟩ : VW1.State))], d) := by
  cases os with
  | none =>
    refine ⟨m, ?_⟩
    by_cases hd : VW1.Done cfg ⟨gid, m, [t]⟩ = true
    · simp [awOf, filesOf, VW1.work1, hns, lookupA, insertA, hd, eraseA]
    · simp [awOf, filesOf, VW1.work1, hns, lookupA, insertA, hd]
  | some sp =>
    have hsp : sp.Id = gid := hid sp rfl
    have hmerge : (VW1.Merge ⟨gid, m, [t]⟩ sp).1
        = ⟨gid, if m = [] then sp.M10File else m, t :: sp.Files⟩ := by
      simp [VW1.Merge, hsp]
    refine ⟨if m = [] then sp.M10File else m, ?_⟩
    by_cases hd : VW1.Done cfg ⟨gid, if m = [] then sp.M10File else m, t :: sp.Files⟩ = true
    · simp [awOf, filesOf, VW1.work1, hns, lookupA, insertA, hmerge, hd, eraseA]
    · simp [awOf, filesOf, VW1.work1, hns, lookupA, insertA, hmerge, hd]

theorem c6_run_aux (cfg : VW1.Config) (gid : GoStr) :
    ∀ (fs ts : List GoStr),
      List.Forall₂ (fun f t => ∃ m, VW1.NewState f = some ⟨gid, m, [t]⟩) fs ts →
      ∀ (os : Option VW1.State) (d : List GoStr),
        (∀ s, os = some s → s.Id = gid) →
        (filesOf os ++ ts).Perm cfg.RequireFiles →
        cfg.RequireFiles.Nodup →
        ts ≠ [] →
        List.foldl (VW1.work1 cfg) (awOf gid os, d) fs = ([], d ++ [gid]) := by
  intro fs ts hrel
  induction hrel with
  | nil =>
    intro os d _ _ _ hne
    exact absurd rfl hne
  | cons hft hrest ih =>
    rename_i f t fs2 ts2
    intro os d hid hperm hnd _
    obtain ⟨m, hns⟩ := hft
    obtain ⟨M, hstep⟩ := work1_single cfg gid os d f m t hns hid
    rw [List.foldl_cons, hstep]
    cases ts2 with
    | nil =>
      have hfs2 : fs2 = [] := List.forall₂_nil_right_iff.mp hrest
      subst hfs2
      have hdone : VW1.Done cfg ⟨gid, M, t :: filesOf os⟩ = true := by
        rw [vw1_done_iff]
        intro b hb
        exact (List.perm_append_singleton t (filesOf os)).mem_iff.mp (hperm.mem_iff.mpr hb)
      rw [hdone]
      simp
    | cons t2 ts3 =>
      have ht2req : t2 ∈ cfg.RequireFiles :=
        hperm.mem_iff.mp (by simp)
      have hL : (filesOf os ++ t :: t2 :: ts3).Nodup := hperm.nodup_iff.mpr hnd
      rw [List.nodup_append] at hL
      obtain ⟨-, h2, hdisj⟩ := hL
      rw [List.nodup_cons] at h2
      obtain ⟨ht, -⟩ := h2
      have ht2not : t2 ∉ t :: filesOf os := by
        intro hmem
        rcases List.mem_cons.mp hmem with he | hin
        · exact ht (he ▸ List.mem_cons_self t2 ts3)
        · exact hdisj hin (by simp)
      have hdone : VW1.Done cfg ⟨gid, M, t :: filesOf os⟩ = false :=
        vw1_done_false cfg _ t2 ht2req ht2not
      rw [hdone]
      simp only [Bool.false_eq_true, if_false]
      have hperm2 : ((t :: filesOf os) ++ t2 :: ts3).Perm cfg.RequireFiles :=
        List.perm_middle.symm.trans hperm
      exact ih (some ⟨gid, M, t :: filesOf os⟩) d
        (by intro s hs; injection hs with hs; rw [← hs]) hperm2 hnd (by simp)

theorem c6_prefix_aux (cfg : VW1.Config) (gid : GoStr) :
    ∀ (fs ts : List GoStr),
      List.Forall₂ (fun f t => ∃ m, VW1.NewState f = some ⟨gid, m, [t]⟩) fs ts →
      ∀ (rest : List GoStr) (os : Option VW1.State) (d : List GoStr),
        (∀ s, os = some s → s.Id = gid) →
        (filesOf os ++ ts ++ rest).Perm cfg.RequireFiles →
        cfg.RequireFiles.Nodup →
        rest ≠ [] →
        (List.foldl (VW1.work1 cfg) (awOf gid os, d) fs).2 = d := by
  intro fs ts hrel
  induction hrel with
  | nil =>
    intro rest os d _ _ _ _
    rfl
  | cons hft hrest ih =>
    rename_i f t fs2 ts2
    intro rest os d hid hperm hnd hrne
    obtain ⟨m, hns⟩ := hft
    obtain ⟨M, hstep⟩ := work1_single cfg gid os d f m t hns hid
    rw [List.foldl_cons, hstep]
    rw [List.append_assoc, List.cons_append] at hperm
    obtain ⟨u, us, hu⟩ : ∃ u us, ts2 ++ rest = u :: us := by
      cases hx : ts2 ++ rest with
      | nil =>
        rcases List.append_eq_nil.mp hx with ⟨-, h2⟩
        exact absurd h2 hrne
      | cons u us => exact ⟨u, us, rfl⟩
    rw [hu] at hperm
    have hureq : u ∈ cfg.RequireFiles := hperm.mem_iff.mp (by simp)
    have hL : (filesOf os ++ t :: u :: us).Nodup := hperm.nodup_iff.mpr hnd
    rw [List.nodup_append] at hL
    obtain ⟨-, h2, hdisj⟩ := hL
    rw [List.nodup_cons] at h2
    obtain ⟨ht, -⟩ := h2
    have hunot : u ∉ t :: filesOf os := by
      intro hmem
      rcases List.mem_cons.mp hmem with he | hin
      · exact ht (he ▸ List.mem_cons_self u us)
      · exact hdisj hin (by simp)
    have hdone : VW1.Done cfg ⟨gid, M, t :: filesOf os⟩ = false :=
      vw1_done_false cfg _ u hureq hunot
    rw [hdone]
    simp only [Bool.false_eq_true, if_false]
    have hperm2 : ((t :: filesOf os) ++ ts2 ++ rest).Perm cfg.RequireFiles := by
      rw [List.append_assoc, hu]
      exact List.perm_middle.symm.trans hperm
    exact ih rest (some ⟨gid, M, t :: filesOf os⟩) d
      (by intro s hs; injection hs with hs; rw [← hs]) hperm2 hnd hrne

/-- C6: for any permutation of the arrival order of a granule's required
file types (required-type names distinct, list non-empty), the `work`
accumulator dispatches the granule exactly once, does not dispatch on
any proper prefix of the arrivals (i.e. before all required types have
been observed), and its completeness predicate `Done` holds exactly when
the satisfied-type list is a superset of the configured required-type
list. -/
theorem c6_completion_perm (cfg : VW1.Config) (gid : GoStr) (fs ts : List GoStr)
    (hnd : cfg.RequireFiles.Nodup) (hne : cfg.RequireFiles ≠ [])
    (hrel : List.Forall₂ (fun f t => ∃ m, VW1.NewState f = some ⟨gid, m, [t]⟩) fs ts)
    (hperm : ts.Perm cfg.RequireFiles) :
    (VW1.workRun cfg fs).2 = [gid]
  ∧ (∀ k, k < fs.length → (VW1.workRun cfg (fs.take k)).2 = [])
  ∧ (∀ s : VW1.State, VW1.Done cfg s = true ↔ ∀ b ∈ cfg.RequireFiles, b ∈ s.Files) := by
  have hts : ts ≠ [] := by
    intro h
    subst h
    exact hne hperm.symm.eq_nil
  refine ⟨?_, ?_, fun s => vw1_done_iff cfg s⟩
  · have h1 := c6_run_aux cfg gid fs ts hrel none []
      (by intro s hs; cases hs) hperm hnd hts
    exact congrArg Prod.snd h1
  · intro k hk
    have hrelk := List.forall₂_take k hrel
    have hlen : fs.length = ts.length := hrel.length_eq
    have hrest : ts.drop k ≠ [] := by
      intro h
      have hl := congrArg List.length h
      rw [List.length_drop] at hl
      simp only [List.length_nil] at hl
      omega
    have hp : (filesOf none ++ ts.take k ++ ts.drop k).Perm cfg.RequireFiles := by
      show (ts.take k ++ ts.drop k).Perm cfg.RequireFiles
      rw [List.take_append_drop]
      exact hperm
    exact c6_prefix_aux cfg gid (fs.take k) (ts.take k) hrelk (ts.drop k) none []
      (by intro s hs; cases hs) hp hnd hrest

/-- C6 witness: the eleven required types of the end-to-end scenario,
arriving once each, dispatch granule `A_B_C_D` exactly once. -/
theorem c6_completion_perm_witness :
    (VW1.workRun cfgAll fsAll).2 = [toL "A_B_C_D"] := by
  refine (c6_completion_perm cfgAll (toL "A_B_C_D") fsAll VW2.required
    (by decide) (by decide) ?_ (List.Perm.refl _)).1
  simp only [fsAll, VW2.required]
  refine List.Forall₂.cons ⟨[], by decide⟩ ?_
  refine List.Forall₂.cons ⟨[], by decide⟩ ?_
  refine List.Forall₂.cons ⟨[], by decide⟩ ?_
  refine List.Forall₂.cons ⟨[], by decide⟩ ?_
  refine List.Forall₂.cons ⟨[], by decide⟩ ?_
  refine List.Forall₂.cons ⟨toL "SVM10_A_B_C_D_c.h5", by decide⟩ ?_
  refine List.Forall₂.cons ⟨[], by decide⟩ ?_
  refine List.Forall₂.cons ⟨[], by decide⟩ ?_
  refine List.Forall₂.cons ⟨[], by decide⟩ ?_
  refine List.Forall₂.cons ⟨[], by decide⟩ ?_
  refine List.Forall₂.cons ⟨[], by decide⟩ ?_
  exact List.Forall₂.nil

theorem p0_newstate_sv (fp : GoStr) (s : P0.State) (h : P0.NewState fp = some s) :
    ∀ t ∈ s.Files, List.isPrefixOf (toL "SV") t = true := by
  intro t ht
  simp only [P0.NewState] at h
  by_cases hlen : (splitOnC '_' (base fp)).length < 6
  · rw [if_pos hlen] at h
    cases h
  · rw [if_neg hlen] at h
    injection h with h
    subst h
    simp only at ht
    by_cases hp : List.isPrefixOf (toL "SV") (splitOnC '_' (base fp)).headI = true
    · rw [if_pos hp] at ht
      rw [List.mem_singleton.mp ht]
      exact hp
    · rw [if_neg hp] at ht
      cases ht

theorem p0_merge_files_sv (s0 s2 : P0.State)
    (h0 : ∀ t ∈ s0.Files, List.isPrefixOf (toL "SV") t = true)
    (h2 : ∀ t ∈ s2.Files, List.isPrefixOf (toL "SV") t = true) :
    ∀ t ∈ (P0.Merge s0 s2).1.Files, List.isPrefixOf (toL "SV") t = true := by
  intro t ht
  by_cases hc : s0.Id ≠ s2.Id
  · rw [show (P0.Merge s0 s2).1 = s0 by simp [P0.Merge, hc]] at ht
    exact h0 t ht
  · rw [show (P0.Merge s0 s2).1
        = ⟨s0.Id, if s0.M10File = [] then s2.M10File else s0.M10File,
           s0.Files ++ s2.Files⟩ by simp [P0.Merge, hc]] at ht
    rcases List.mem_append.mp ht with hm | hm
    · exact h0 t hm
    · exact h2 t hm

theorem c10_run_aux (cfg : P0.Config) (b : GoStr) (hb : b ∈ cfg.RequireFiles)
    (hsv : List.isPrefixOf (toL "SV") b = false) :
    ∀ (fs : List GoStr) (aw : List (GoStr × P0.State)) (d : List GoStr),
      (∀ p ∈ aw, ∀ t ∈ p.2.Files, List.isPrefixOf (toL "SV") t = true) →
      (List.foldl (P0.work1 cfg) (aw, d) fs).2 = d := by
  intro fs
  induction fs with
  | nil =>
    intro aw d _
    rfl
  | cons f fs2 ih =>
    intro aw d hinv
    rw [List.foldl_cons]
    cases hns : P0.NewState f with
    | none =>
      rw [show P0.work1 cfg (aw, d) f = (aw, d) by simp [P0.work1, hns]]
      exact ih aw d hinv
    | some s0 =>
      have hs0 : ∀ t ∈ s0.Files, List.isPrefixOf (toL "SV") t = true :=
        p0_newstate_sv f s0 hns
      cases hlk : lookupA aw s0.Id with
      | none =>
        have hdone : P0.Done cfg s0 = false := by
          apply p0_done_false cfg s0 b hb
          intro hbmem
          rw [hs0 b hbmem] at hsv
          cases hsv
        rw [show P0.work1 cfg (aw, d) f = (insertA aw s0.Id s0, d) by
          simp [P0.work1, hns, hlk, hdone]]
        apply ih
        intro p hp t ht
        rcases mem_insertA aw s0.Id s0 p hp with he | hin
        · subst he
          exact hs0 t ht
        · exact hinv p hin t ht
      | some s2 =>
        have hs2 : ∀ t ∈ s2.Files, List.isPrefixOf (toL "SV") t = true :=
          hinv (s0.Id, s2) (lookupA_mem aw s0.Id s2 hlk)
        have hsm : ∀ t ∈ (P0.Merge s0 s2).1.Files, List.isPrefixOf (toL "SV") t = true :=
          p0_merge_files_sv s0 s2 hs0 hs2
        have hdone : P0.Done cfg (P0.Merge s0 s2).1 = false := by
          apply p0_done_false cfg _ b hb
          intro hbmem
          rw [hsm b hbmem] at hsv
          cases hsv
        rw [show P0.work1 cfg (aw, d) f
            = (insertA aw (P0.Merge s0 s2).1.Id (P0.Merge s0 s2).1, d) by
          simp [P0.work1, hns, hlk, hdone]]
        apply ih
        intro p hp t ht
        rcases mem_insertA aw (P0.Merge s0 s2).1.Id (P0.Merge s0 s2).1 p hp with he | hin
        · subst he
          exact hsm t ht
        · exact hinv p hin t ht

/-- C10: in the unnamed variant, `NewState` records only types with the
`SV` prefix in `Files` (a non-SV type yields an empty `Files` list), and
therefore a configuration requiring a type without the `SV` prefix
(such as `GMTCO` or `IICMO`) can never be satisfied: the `work` loop
never dispatches any granule. -/
theorem c10_sv_filter :
    (∀ fp s, P0.NewState fp = some s →
        ∀ t ∈ s.Files, List.isPrefixOf (toL "SV") t = true)
  ∧ (∀ fp s, P0.NewState fp = some s →
        List.isPrefixOf (toL "SV") (splitOnC '_' (base fp)).headI = false →
        s.Files = [])
  ∧ (∀ (cfg : P0.Config) (fs : List GoStr) (b : GoStr),
        b ∈ cfg.RequireFiles → List.isPrefixOf (toL "SV") b = false →
        (P0.workRun cfg fs).2 = []) := by
  refine ⟨p0_newstate_sv, ?_, ?_⟩
  · intro fp s h hp
    simp only [P0.NewState] at h
    by_cases hlen : (splitOnC '_' (base fp)).length < 6
    · rw [if_pos hlen] at h
      cases h
    · rw [if_neg hlen] at h
      injection h with h
      subst h
      simp [hp]
  · intro cfg fs b hb hsv
    exact c10_run_aux cfg b hb hsv fs [] [] (by intro p hp; cases hp)

/-- C10 witness: with `GMTCO` required, even repeated stable arrivals of
every required type never dispatch in the unnamed variant. -/
theorem c10_sv_filter_witness :
    (P0.workRun cfgP0
        [toL "GMTCO_A_B_C_D_c.h5", toL "SVM10_A_B_C_D_c.h5",
         toL "GMTCO_A_B_C_D_c.h5", toL "SVM10_A_B_C_D_c.h5"]).2 = [] :=
  c10_sv_filter.2.2 cfgP0
    [toL "GMTCO_A_B_C_D_c.h5", toL "SVM10_A_B_C_D_c.h5",
     toL "GMTCO_A_B_C_D_c.h5", toL "SVM10_A_B_C_D_c.h5"]
    (toL "GMTCO") (by decide) (by decide)
